import Mathlib

/-!
Verification development for the `ha_entity_explorer` repository.

The Python sources (`config.py`, `ha_api.py`, `server.py`) are shallowly
embedded below: pure functions become Lean functions, the mutable module
state (login counters, ban file, states cache) becomes explicit state
passing, and code that can raise an exception returns `Option`/`Except`.
Remote HTTP calls and the external timestamp parser are abstracted as
function parameters (oracles) of the embedded operations.
-/

/-! ### Glob matching (Python `fnmatch.fnmatch`, used by `config.py`)

`fnmatch.fnmatch(name, pattern)` on a POSIX system translates the pattern
to a regex and full-matches: `*` matches any run of characters, `?` any
single character, `[...]` a character class (leading `!` negates, a `]`
right after the opening bracket is literal, `a-b` is a code-point range,
an unterminated `[` is a literal `[`).  The recursive matcher below uses
a fuel argument so that it is structurally recursive and kernel-evaluable;
the wrapper supplies `pattern.length + name.length + 1` fuel, which is
enough because every recursive call shrinks `pattern.length + name.length`.
-/

/-- Scan for the closing `]` of a character class: returns the class body
and the remainder of the pattern after the `]`. -/
def findClose : List Char → Option (List Char × List Char)
  | [] => none
  | ']' :: rest => some ([], rest)
  | c :: rest =>
    match findClose rest with
    | none => none
    | some (a, b) => some (c :: a, b)

/-- Split a character class from the pattern tail following `[`, with the
CPython rule that the scan for the closing `]` starts after a leading `!`
and after a leading `]`.  Returns `none` when the class is unterminated
(the `[` is then treated as a literal character). -/
def splitClass : List Char → Option (List Char × List Char)
  | '!' :: ']' :: rest =>
    match findClose rest with
    | none => none
    | some (a, b) => some ('!' :: ']' :: a, b)
  | '!' :: rest =>
    match findClose rest with
    | none => none
    | some (a, b) => some ('!' :: a, b)
  | ']' :: rest =>
    match findClose rest with
    | none => none
    | some (a, b) => some (']' :: a, b)
  | ps => findClose ps

/-- Match a character against the items of a class body: `a-b` (with a
character on each side) is a code-point range, anything else is a literal.
An empty range (`a-b` with `a > b`) matches nothing, as in CPython's
`fnmatch.translate`. -/
def classItemsMatch : List Char → Char → Bool
  | [], _ => false
  | a :: '-' :: b :: rest, c => (a ≤ c && c ≤ b) || classItemsMatch rest c
  | a :: rest, c => (a == c) || classItemsMatch rest c

/-- Match a character against a full class body, honouring a leading `!`
(negation). -/
def classMatch (stuff : List Char) (c : Char) : Bool :=
  match stuff with
  | '!' :: rest => !(classItemsMatch rest c)
  | _ => classItemsMatch stuff c

/-- Fuel-indexed glob matcher: `globAux fuel pattern name`. -/
def globAux : Nat → List Char → List Char → Bool
  | 0, _, _ => false
  | _ + 1, [], s => s.isEmpty
  | n + 1, '*' :: ps, s =>
    match s with
    | [] => globAux n ps []
    | _ :: ss => globAux n ps s || globAux n ('*' :: ps) ss
  | n + 1, '?' :: ps, s =>
    match s with
    | [] => false
    | _ :: ss => globAux n ps ss
  | n + 1, '[' :: ps, s =>
    match splitClass ps with
    | none =>
      match s with
      | [] => false
      | c :: ss => ('[' == c) && globAux n ps ss
    | some (stuff, rest) =>
      match s with
      | [] => false
      | c :: ss => classMatch stuff c && globAux n rest ss
  | n + 1, p :: ps, s =>
    match s with
    | [] => false
    | c :: ss => (p == c) && globAux n ps ss

/-- Embedding of `fnmatch.fnmatch(name, pat)` (POSIX case-sensitive form). -/
def fnmatch (name pat : String) : Bool :=
  globAux (pat.length + name.length + 1) pat.toList name.toList

/-! ### `config.py`: `Config` and `Config.is_entity_allowed` -/

/-- The fields of `Config` (config.py) that the access policy and the
login guard consult.  The remote-connection and app sections are not
needed by any claim. -/
structure Config where
  whitelist : List String
  blacklist : List String
  safe_ips : List String

/-- Embedding of `Config.is_entity_allowed` (config.py, lines 40-66):
if the whitelist is non-empty, allow exactly the entities matching some
whitelist pattern; otherwise if the blacklist is non-empty, deny exactly
the entities matching some blacklist pattern; otherwise allow all. -/
def is_entity_allowed (cfg : Config) (entity_id : String) : Bool :=
  if !cfg.whitelist.isEmpty then
    cfg.whitelist.any (fun pat => fnmatch entity_id pat)
  else if !cfg.blacklist.isEmpty then
    !cfg.blacklist.any (fun pat => fnmatch entity_id pat)
  else
    true

/-- Claim C1: with a non-empty whitelist, `is_entity_allowed e` is true iff
`e` matches at least one whitelist glob pattern, and adding any pattern to
the blacklist never changes the result; with an empty whitelist and a
non-empty blacklist it is false iff `e` matches some blacklist pattern;
with both empty it is true. -/
theorem C1_access_policy (wl bl safe : List String) (e : String) :
    (wl ≠ [] →
      (is_entity_allowed ⟨wl, bl, safe⟩ e = true ↔ ∃ pat ∈ wl, fnmatch e pat = true)
        ∧ ∀ q : String,
            is_entity_allowed ⟨wl, q :: bl, safe⟩ e = is_entity_allowed ⟨wl, bl, safe⟩ e)
    ∧ (wl = [] → bl ≠ [] →
        (is_entity_allowed ⟨wl, bl, safe⟩ e = false ↔ ∃ pat ∈ bl, fnmatch e pat = true))
    ∧ (wl = [] → bl = [] → is_entity_allowed ⟨wl, bl, safe⟩ e = true) := by
  refine ⟨?_, ?_, ?_⟩
  · intro hwl
    cases wl with
    | nil => exact absurd rfl hwl
    | cons a tl =>
      constructor
      · simp [is_entity_allowed, List.any_eq_true]
      · intro q; rfl
  · intro hwl hbl
    subst hwl
    cases bl with
    | nil => exact absurd rfl hbl
    | cons a tl =>
      simp only [is_entity_allowed, List.isEmpty_nil, Bool.not_true, Bool.false_eq_true,
        if_false, List.isEmpty_cons, Bool.not_false, if_true, Bool.not_eq_false',
        List.any_eq_true]
  · intro hwl hbl
    subst hwl; subst hbl
    rfl

/-- Concrete instance of C1 (spec Scenario A): whitelist `["climate.*"]`
allows `climate.kitchen`. -/
theorem C1_access_policy_witness :
    is_entity_allowed ⟨["climate.*"], [], []⟩ "climate.kitchen" = true :=
  ((C1_access_policy ["climate.*"] [] [] "climate.kitchen").1 (by decide)).1.mpr
    ⟨"climate.*", by decide, by decide⟩

/-! ### Data model: raw history entries and JSON attribute values -/

/-- JSON values, as produced by `response.json()`: the attribute trees of
history entries are arbitrarily nested JSON.  Python `None` and JSON
`null` are the same object after parsing, represented by `JVal.null`. -/
inductive JVal where
  | null : JVal
  | b : Bool → JVal
  | num : ℚ → JVal
  | str : String → JVal
  | arr : List JVal → JVal
  | obj : List (String × JVal) → JVal

/-- Python `dict.get(k)` on a JSON object: the first binding of `k`, or
`none` (Python `None`) when the key is absent. -/
def jget (kvs : List (String × JVal)) (k : String) : Option JVal :=
  (kvs.find? (fun p => p.1 == k)).map (fun p => p.2)

/-- `isinstance(v, dict)` for a JSON value. -/
def JVal.isObj : JVal → Bool
  | JVal.obj _ => true
  | _ => false

/-- `v is None` for a parsed JSON value. -/
def JVal.isNull : JVal → Bool
  | JVal.null => true
  | _ => false

/-- A raw history / state entry as the server code consumes it
(`entry.get("last_changed")`, `entry.get("last_updated")`,
`entry.get("state")`, `entry.get("attributes", {})`); `none` models an
absent key. -/
structure RawEntry where
  last_changed : Option String := none
  last_updated : Option String := none
  state : Option String := none
  attributes : Option (List (String × JVal)) := none

/-- Python truthiness of an optional string: `None` and `""` are falsy. -/
def truthyStr : Option String → Option String
  | none => none
  | some s => if s.isEmpty then none else some s

/-- The series timestamp of an entry:
`entry.get("last_changed") or entry.get("last_updated")`, as used with
`if not ts: continue` in every transformer loop of server.py; `none`
means the computed value is falsy and the entry is skipped. -/
def entryTs (e : RawEntry) : Option String :=
  match truthyStr e.last_changed with
  | some s => some s
  | none => truthyStr e.last_updated

/-- An entry survives a transformer loop iff its timestamp is truthy. -/
def tsPresent (e : RawEntry) : Bool :=
  (entryTs e).isSome

/-- The timestamp a surviving entry contributes (total helper; the `""`
default is never reached on surviving entries). -/
def tsValue (e : RawEntry) : String :=
  (entryTs e).getD ""

/-! ### Python `float(state)` (used by `process_generic_history`)

`pyFloat` models the builtin `float` applied to a string, on the decimal
grammar `[ws] [sign] (digits [. digits] | . digits) [(e|E) [sign] digits]
[ws]`, returning the exact rational value.  The special forms `inf`,
`infinity`, `nan` and digit-group underscores are not modelled (no claim
exercises them, and the exact rational result would not exist for them).
-/

/-- Whitespace accepted by `float()` around a literal. -/
def isPyWs (c : Char) : Bool :=
  c == ' ' || c == '\t' || c == '\n' || c == '\r' || c == '\x0b' || c == '\x0c'

/-- Value of a digit string as a natural number. -/
def digitsVal (l : List Char) : Nat :=
  l.foldl (fun a c => a * 10 + (c.toNat - 48)) 0

/-- The exact rational value `(-1)^neg * m * 10 ^ sh` of a parsed decimal
literal with digit value `m` and decimal shift `sh`.  Built with `mkRat`
(rather than rational arithmetic) so that it evaluates inside the
kernel. -/
def ratOfDigits (neg : Bool) (m : Nat) (sh : Int) : ℚ :=
  let n : Int := if neg then -(m : Int) else (m : Int)
  if 0 ≤ sh then mkRat (n * ((10 ^ sh.toNat : Nat) : Int)) 1
  else mkRat n (10 ^ (-sh).toNat)

/-- Parse the mantissa `digits [. digits] | . digits`; fails when no digit
is present.  Returns the combined digit value and the decimal shift
(minus the number of fractional digits), plus the unconsumed rest. -/
def parseMantissa (l : List Char) : Option ((Nat × Int) × List Char) :=
  let ip := l.takeWhile Char.isDigit
  let r1 := l.dropWhile Char.isDigit
  match r1 with
  | '.' :: r2 =>
    let fp := r2.takeWhile Char.isDigit
    let r3 := r2.dropWhile Char.isDigit
    if ip.isEmpty && fp.isEmpty then none
    else some ((digitsVal (ip ++ fp), -(fp.length : Int)), r3)
  | _ => if ip.isEmpty then none else some ((digitsVal ip, 0), r1)

/-- Parse the digits of an exponent after its optional sign. -/
def parseExpDigits (sgn : Int) (l : List Char) : Option (Int × List Char) :=
  let ds := l.takeWhile Char.isDigit
  let r := l.dropWhile Char.isDigit
  if ds.isEmpty then none else some (sgn * ((digitsVal ds : ℕ) : Int), r)

/-- Parse an optional exponent `(e|E) [sign] digits`. -/
def parseExpPart (l : List Char) : Option (Int × List Char) :=
  match l with
  | 'e' :: r =>
    (match r with
     | '+' :: t => parseExpDigits 1 t
     | '-' :: t => parseExpDigits (-1) t
     | t => parseExpDigits 1 t)
  | 'E' :: r =>
    (match r with
     | '+' :: t => parseExpDigits 1 t
     | '-' :: t => parseExpDigits (-1) t
     | t => parseExpDigits 1 t)
  | _ => some (0, l)

/-- Model of Python `float(s)` on finite decimal literals: `some q` when
`float` succeeds with exact value `q`, `none` when it raises
`ValueError`. -/
def pyFloat (s : String) : Option ℚ :=
  let l0 := s.toList.dropWhile isPyWs
  let sl : Bool × List Char :=
    match l0 with
    | '+' :: r => (false, r)
    | '-' :: r => (true, r)
    | _ => (false, l0)
  match parseMantissa sl.2 with
  | none => none
  | some (m, r1) =>
    match parseExpPart r1 with
    | none => none
    | some (e, r2) =>
      if (r2.dropWhile isPyWs).isEmpty then some (ratOfDigits sl.1 m.1 (m.2 + e))
      else none

/-! ### `process_generic_history` (server.py, lines 182-224) -/

/-- A value of the generic state series: a parsed number, a raw string, or
Python `None` (serialised as JSON null). -/
inductive GVal where
  | vnull : GVal
  | vstr : String → GVal
  | vnum : ℚ → GVal
deriving DecidableEq

/-- The per-entry body of the `process_generic_history` loop: attempt
`float(state)` unless the state is `None` or one of the sentinels
`"unknown"` / `"unavailable"`; returns the appended value together with
the contribution to `is_numeric` (`some b` when this entry would set a
still-unset `is_numeric` to `b`). -/
def convertState (state : Option String) : GVal × Option Bool :=
  match state with
  | none => (GVal.vnull, none)
  | some s =>
    if s == "unknown" || s == "unavailable" then (GVal.vstr s, none)
    else
      match pyFloat s with
      | some q => (GVal.vnum q, some true)
      | none => (GVal.vstr s, some false)

/-- The loop of `process_generic_history`: returns the `timestamps` and
`states` arrays and the final `is_numeric` flag (`none` models Python
`None`, i.e. never set). -/
def pghLoop : List RawEntry → List String × List GVal × Option Bool
  | [] => ([], [], none)
  | e :: rest =>
    match entryTs e with
    | none => pghLoop rest
    | some ts =>
      let r := pghLoop rest
      let c := convertState e.state
      (ts :: r.1, c.1 :: r.2.1, c.2.orElse (fun _ => r.2.2))

/-- Result record of `process_generic_history`. -/
structure GenericResult where
  type : String
  domain : String
  timestamps : List String
  states : List GVal
deriving DecidableEq

/-- The domain of an entity identifier:
`entity_id.split(".")[0] if "." in entity_id else ""`.  Implemented over
the character list (the prefix before the first `.`) so that it reduces
inside the kernel. -/
def entityDomain (entity_id : String) : String :=
  let cs := entity_id.toList
  if cs.contains '.' then String.mk (cs.takeWhile (fun c => c != '.')) else ""

/-- Embedding of `process_generic_history(history_data, entity_id)`
(server.py, lines 182-224). -/
def process_generic_history (history_data : List RawEntry) (entity_id : String) :
    GenericResult :=
  let r := pghLoop history_data
  { type := if r.2.2 == some true then "numeric" else "text"
    domain := entityDomain entity_id
    timestamps := r.1
    states := r.2.1 }

/-- The `timestamps` array built by the generic loop contains exactly the
truthy timestamps of the surviving entries, in order. -/
theorem pghLoop_timestamps (hist : List RawEntry) :
    (pghLoop hist).1 = (hist.filter tsPresent).map tsValue := by
  induction hist with
  | nil => rfl
  | cons e rest ih =>
    cases h : entryTs e with
    | none => simp [pghLoop, h, tsPresent, ih]
    | some ts => simp [pghLoop, h, tsPresent, tsValue, ih]

/-- The `states` array built by the generic loop contains exactly the
converted state of each surviving entry, in order. -/
theorem pghLoop_states (hist : List RawEntry) :
    (pghLoop hist).2.1 = (hist.filter tsPresent).map (fun e => (convertState e.state).1) := by
  induction hist with
  | nil => rfl
  | cons e rest ih =>
    cases h : entryTs e with
    | none => simp [pghLoop, h, tsPresent, ih]
    | some ts => simp [pghLoop, h, tsPresent, ih]

/-- Claim C2 is falsified by the code: on the spec's Scenario C input the
series is numeric with timestamps `[T1, T2]`, but the second state is the
raw sentinel string `"unavailable"`, not null — `process_generic_history`
exempts sentinel states from coercion and appends them unchanged. -/
theorem C2_sentinel_counterexample :
    process_generic_history
        [{ last_changed := some "T1", state := some "21.5" },
         { last_changed := some "T2", state := some "unavailable" }] "sensor.temp"
      = { type := "numeric", domain := "sensor", timestamps := ["T1", "T2"],
          states := [GVal.vnum (mkRat 43 2), GVal.vstr "unavailable"] }
    ∧ GVal.vstr "unavailable" ≠ GVal.vnull := by
  constructor
  · decide
  · decide

/-- Claim C2 (amended): in generic mode a raw entry whose state equals
`"unknown"` or `"unavailable"` is exempted from numeric coercion and the
produced series holds that sentinel string unchanged at the entry's index
(null appears only when the raw state itself is null); the Scenario C
input yields a numeric series with timestamps `[T1, T2]` and states
`[21.5, "unavailable"]`. -/
theorem C2_sentinel_amended (hist : List RawEntry) (eid : String) :
    ((process_generic_history hist eid).states
        = (hist.filter tsPresent).map (fun e => (convertState e.state).1))
    ∧ (∀ s : String, s = "unknown" ∨ s = "unavailable" →
        (convertState (some s)).1 = GVal.vstr s)
    ∧ (convertState none).1 = GVal.vnull
    ∧ (process_generic_history
        [{ last_changed := some "T1", state := some "21.5" },
         { last_changed := some "T2", state := some "unavailable" }] "sensor.temp").states
      = [GVal.vnum (mkRat 43 2), GVal.vstr "unavailable"] := by
  refine ⟨pghLoop_states hist, ?_, rfl, by decide⟩
  intro s hs
  rcases hs with h | h <;> subst h <;> rfl

/-- Concrete instance of the amended C2: the sentinel `"unknown"` is
appended unchanged. -/
theorem C2_sentinel_amended_witness :
    (convertState (some "unknown")).1 = GVal.vstr "unknown" :=
  (C2_sentinel_amended [] "x").2.1 "unknown" (Or.inl rfl)

/-! ### Login guard (server.py, lines 56-88 and 231-266)

The module state is the attempt counter dictionary `login_attempts` and
the persisted ban list `ip_bans.yaml` (read by `load_banned_ips` on every
attempt, rewritten by `ban_ip`).  One POST to `/login` is modelled as a
state transition `login`.
-/

/-- `MAX_LOGIN_ATTEMPTS` (server.py, line 57). -/
def MAX_LOGIN_ATTEMPTS : Nat := 5

/-- The mutable guard state: the per-address failed-attempt counters and
the persisted banned-address list. -/
structure GuardState where
  attempts : List (String × Nat)
  banned : List String
deriving DecidableEq

/-- Outcome of one POST to `/login`. -/
inductive LoginOutcome where
  | banned403 : LoginOutcome
  | success : LoginOutcome
  | tooMany403 : LoginOutcome
  | invalidCreds : LoginOutcome
deriving DecidableEq

/-- `login_attempts.get(ip, 0)`. -/
def lookupCount (m : List (String × Nat)) (ip : String) : Nat :=
  match m.find? (fun p => p.1 == ip) with
  | some p => p.2
  | none => 0

/-- Remove the binding of `ip` (`del login_attempts[ip]`). -/
def removeKey (m : List (String × Nat)) (ip : String) : List (String × Nat) :=
  m.filter (fun p => p.1 != ip)

/-- `login_attempts[ip] = n`. -/
def setCount (m : List (String × Nat)) (ip : String) (n : Nat) : List (String × Nat) :=
  removeKey m ip ++ [(ip, n)]

/-- `username in users and users[username] == password`. -/
def checkCreds (users : List (String × String)) (u p : String) : Bool :=
  match users.find? (fun q => q.1 == u) with
  | some q => q.2 == p
  | none => false

/-- Embedding of `ban_ip(ip)` (server.py, lines 74-88): append `ip` to the
persisted ban list unless it is a safe address or already present. -/
def ban_ip (safe : List String) (banned : List String) (ip : String) : List String :=
  if ip ∈ safe then banned
  else if ip ∈ banned then banned
  else banned ++ [ip]

/-- Embedding of one POST to the `login` route (server.py, lines 231-266):
the ban check runs first (`client_ip not in config.safe_ips and client_ip
in load_banned_ips()`); then credentials are verified; success clears the
counter; failure increments it and bans the address when the counter
reaches `MAX_LOGIN_ATTEMPTS`. -/
def login (safe : List String) (users : List (String × String)) (st : GuardState)
    (ip u p : String) : GuardState × LoginOutcome :=
  if ip ∉ safe ∧ ip ∈ st.banned then (st, LoginOutcome.banned403)
  else if checkCreds users u p then
    ({ st with attempts := removeKey st.attempts ip }, LoginOutcome.success)
  else
    let n := lookupCount st.attempts ip + 1
    let att := setCount st.attempts ip n
    if MAX_LOGIN_ATTEMPTS ≤ n then
      ({ attempts := att, banned := ban_ip safe st.banned ip }, LoginOutcome.tooMany403)
    else
      ({ attempts := att, banned := st.banned }, LoginOutcome.invalidCreds)

/-- Claim C3: for a source address not in the safe set, the fifth
consecutive failed attempt (counter at 4, failing credentials) adds the
address to the persisted ban set, and every subsequent attempt from a
banned, non-safe address is rejected with the ban outcome and an
unchanged state, for arbitrary users and credentials — i.e. before and
regardless of credential verification. -/
theorem C3_login_guard (safe : List String) (users : List (String × String))
    (st : GuardState) (ip u p : String)
    (hsafe : ip ∉ safe) (hnb : ip ∉ st.banned)
    (hbad : checkCreds users u p = false)
    (hcnt : lookupCount st.attempts ip = MAX_LOGIN_ATTEMPTS - 1) :
    ip ∈ (login safe users st ip u p).1.banned
    ∧ (login safe users st ip u p).2 = LoginOutcome.tooMany403
    ∧ ∀ (users2 : List (String × String)) (st2 : GuardState) (u2 p2 : String),
        ip ∉ safe → ip ∈ st2.banned →
        login safe users2 st2 ip u2 p2 = (st2, LoginOutcome.banned403) := by
  refine ⟨?_, ?_, ?_⟩
  · simp only [login, hbad, hcnt]
    rw [if_neg (by exact fun h => hnb h.2)]
    simp only [Bool.false_eq_true, if_false, MAX_LOGIN_ATTEMPTS]
    rw [if_pos (by omega)]
    simp [ban_ip, hsafe, hnb]
  · simp only [login, hbad, hcnt]
    rw [if_neg (by exact fun h => hnb h.2)]
    simp only [Bool.false_eq_true, if_false, MAX_LOGIN_ATTEMPTS]
    rw [if_pos (by omega)]
  · intro users2 st2 u2 p2 h1 h2
    simp [login, h1, h2]

/-- Concrete instance of C3: address `1.2.3.4` with four recorded failures
is banned by a fifth bad-credential attempt, and a further attempt with
the correct credentials is rejected by the ban check. -/
theorem C3_login_guard_witness :
    "1.2.3.4" ∈ (login [] [("admin", "pw")] ⟨[("1.2.3.4", 4)], []⟩
        "1.2.3.4" "admin" "bad").1.banned
    ∧ login [] [("admin", "pw")]
        ⟨[("1.2.3.4", 5)], ["1.2.3.4"]⟩ "1.2.3.4" "admin" "pw"
      = (⟨[("1.2.3.4", 5)], ["1.2.3.4"]⟩, LoginOutcome.banned403) := by
  have h := C3_login_guard [] [("admin", "pw")] ⟨[("1.2.3.4", 4)], []⟩
    "1.2.3.4" "admin" "bad" (by decide) (by decide) (by decide) (by decide)
  exact ⟨h.1, h.2.2 [("admin", "pw")] ⟨[("1.2.3.4", 5)], ["1.2.3.4"]⟩ "admin" "pw"
    (by decide) (by decide)⟩

/-! ### The states cache (`ha_api.py`, `HomeAssistantAPI.get_states`)

The instance state is `_states_cache` / `_states_cache_time`; time is
modelled as rational seconds (`(now - t).total_seconds()`), and the
single remote round trip `self._request("GET", "/api/states")` is an
input of the transition: `Except.error e` models a raised
`HomeAssistantAPIError`.
-/

/-- `HomeAssistantAPIError(message, status_code)` (ha_api.py, lines
12-17). -/
structure ApiError where
  message : String
  status_code : Option Nat
deriving DecidableEq

/-- The cache fields of a `HomeAssistantAPI` instance. -/
structure CacheState where
  states_cache : Option (List RawEntry)
  states_cache_time : Option ℚ

/-- `self._cache_ttl = 60` (ha_api.py, line 39). -/
def cache_ttl : ℚ := 60

/-- The cache-validity test of `get_states` (ha_api.py, lines 125-128):
not forced, both cache fields set, and age strictly below the TTL. -/
def cacheValid (st : CacheState) (now : ℚ) (force_refresh : Bool) : Bool :=
  !force_refresh &&
    match st.states_cache, st.states_cache_time with
    | some _, some t => decide (now - t < cache_ttl)
    | _, _ => false

/-- Embedding of `HomeAssistantAPI.get_states` (ha_api.py, lines 111-138):
serve the cached snapshot when the cache is valid; otherwise perform the
remote fetch, and on success store snapshot and timestamp together.  A
fetch failure (`Except.error`) propagates and leaves the state
unchanged. -/
def get_states (st : CacheState) (now : ℚ) (force_refresh : Bool)
    (fetch : Except ApiError (List RawEntry)) :
    Except ApiError (List RawEntry) × CacheState :=
  if cacheValid st now force_refresh then
    (Except.ok (st.states_cache.getD []), st)
  else
    match fetch with
    | Except.error e => (Except.error e, st)
    | Except.ok states =>
      (Except.ok states, { states_cache := some states, states_cache_time := some now })

/-- Claim C4: with a snapshot fetched less than `ttl = 60` seconds ago,
two successive `get_states()` calls without force-refresh both return the
identical cached snapshot and leave the state untouched, whatever the
remote fetch would have returned (the fetch inputs `f1`, `f2` are
arbitrary, so no remote call is consulted). -/
theorem C4_cache_idempotent (c : List RawEntry) (t now1 now2 : ℚ)
    (f1 f2 : Except ApiError (List RawEntry))
    (h1 : now1 - t < 60) (h2 : now2 - t < 60) :
    get_states ⟨some c, some t⟩ now1 false f1 = (Except.ok c, ⟨some c, some t⟩)
    ∧ get_states (get_states ⟨some c, some t⟩ now1 false f1).2 now2 false f2
      = (Except.ok c, ⟨some c, some t⟩) := by
  have hv1 : cacheValid ⟨some c, some t⟩ now1 false = true := by
    simp [cacheValid, cache_ttl, h1]
  have hv2 : cacheValid ⟨some c, some t⟩ now2 false = true := by
    simp [cacheValid, cache_ttl, h2]
  constructor
  · simp [get_states, hv1]
  · simp [get_states, hv1, hv2]

/-- Concrete instance of C4 at time 0 with an empty snapshot. -/
theorem C4_cache_idempotent_witness :
    get_states ⟨some [], some 0⟩ 0 false (Except.error ⟨"boom", none⟩)
      = (Except.ok [], ⟨some [], some 0⟩) :=
  (C4_cache_idempotent [] 0 0 0 (Except.error ⟨"boom", none⟩)
    (Except.error ⟨"boom", none⟩) (by simp) (by simp)).1

/-- Claim C5: whenever `get_states` actually fetches (the cache test
fails) and the fetch raises, the typed error propagates and both cache
fields are left exactly as they were. -/
theorem C5_cache_error_propagation (st : CacheState) (now : ℚ) (force_refresh : Bool)
    (e : ApiError) (h : cacheValid st now force_refresh = false) :
    get_states st now force_refresh (Except.error e) = (Except.error e, st) := by
  simp [get_states, h]

/-- Concrete instance of C5: a failed fetch on an empty cache returns the
error and leaves the cache empty. -/
theorem C5_cache_error_propagation_witness :
    get_states ⟨none, none⟩ 0 false (Except.error ⟨"boom", some 401⟩)
      = (Except.error ⟨"boom", some 401⟩, ⟨none, none⟩) :=
  C5_cache_error_propagation ⟨none, none⟩ 0 false ⟨"boom", some 401⟩ rfl

/-! ### Range discovery (`ha_api.py`, `get_available_history_range`)

`self.get_history(entity_id, start, start + 1h, minimal_response=True)`
is abstracted as an oracle `fetch start end`, and `dateutil`'s
`date_parser.parse` as a total oracle `parseTs` on strings.  Time is
rational seconds; `timedelta(days=d)` is `d * 86400` and
`timedelta(hours=1)` is `3600`.  The overall result is an `Option`:
`none` models an exception escaping the method (which happens when a
probed entry has neither `last_changed` nor `last_updated`, so that
`date_parser.parse(None)` raises).
-/

/-- `h.get("last_changed", h.get("last_updated"))` — `dict.get` with a
default, not truthiness-based: the fallback applies only when the key is
absent. -/
def firstTsField (h : RawEntry) : Option String :=
  match h.last_changed with
  | some s => some s
  | none => h.last_updated

/-- `date_parser.parse` applied to the field value; `parse(None)` raises,
modelled as `none`. -/
def parseField (parseTs : String → ℚ) : Option String → Option ℚ
  | none => none
  | some s => some (parseTs s)

/-- The `for days in [14, 7, 3, 1]` loop of `get_available_history_range`
(ha_api.py, lines 240-251), generalized over the remaining offsets. -/
def gahrLoop (fetch : ℚ → ℚ → List RawEntry) (parseTs : String → ℚ) (now : ℚ) :
    List ℚ → Option (Option ℚ × ℚ)
  | [] => some (none, now)
  | d :: ds =>
    let t := now - d * 86400
    match fetch t (t + 3600) with
    | h :: _ => (parseField parseTs (firstTsField h)).map (fun q => (some q, now))
    | [] => gahrLoop fetch parseTs now ds

/-- Embedding of `HomeAssistantAPI.get_available_history_range`
(ha_api.py, lines 205-254): probe a 1-hour window 30 days back, then 14,
7, 3, 1 days back, returning the parsed first timestamp of the first
non-empty window, and `(none, now)` when all probes are empty. -/
def get_available_history_range (fetch : ℚ → ℚ → List RawEntry)
    (parseTs : String → ℚ) (now : ℚ) : Option (Option ℚ × ℚ) :=
  let far_back := now - 30 * 86400
  match fetch far_back (far_back + 3600) with
  | h :: _ => (parseField parseTs (firstTsField h)).map (fun q => (some q, now))
  | [] => gahrLoop fetch parseTs now [14, 7, 3, 1]

/-- The full fixed probe-offset sequence, in days (spec wording: first 30,
then 14, 7, 3, 1). -/
def probeOffsets : List ℚ := [30, 14, 7, 3, 1]

/-- Spec-side formulation of the probing loop: the first entry of the
first non-empty 1-hour window among the probed offsets, scanned in
order. -/
def probeFirst (fetch : ℚ → ℚ → List RawEntry) (now : ℚ) : List ℚ → Option RawEntry
  | [] => none
  | d :: ds =>
    let t := now - d * 86400
    match fetch t (t + 3600) with
    | h :: _ => some h
    | [] => probeFirst fetch now ds

/-- The implementation loop agrees with the spec-side scan on any list of
offsets. -/
theorem gahrLoop_eq_probeFirst (fetch : ℚ → ℚ → List RawEntry)
    (parseTs : String → ℚ) (now : ℚ) (ds : List ℚ) :
    gahrLoop fetch parseTs now ds =
      match probeFirst fetch now ds with
      | none => some (none, now)
      | some h => (parseField parseTs (firstTsField h)).map (fun q => (some q, now)) := by
  induction ds with
  | nil => rfl
  | cons d ds ih =>
    simp only [gahrLoop, probeFirst]
    cases fetch (now - d * 86400) (now - d * 86400 + 3600) with
    | nil => exact ih
    | cons h rest => rfl

/-- Claim C6: `get_available_history_range` returns the parsed
`last_changed` (fallback `last_updated`) of the first entry of the first
non-empty 1-hour window probed at exactly 30, 14, 7, 3, 1 days back, in
that order; when all five probes are empty it returns `(none, now)`. -/
theorem C6_range_discovery (fetch : ℚ → ℚ → List RawEntry)
    (parseTs : String → ℚ) (now : ℚ) :
    (get_available_history_range fetch parseTs now =
      match probeFirst fetch now probeOffsets with
      | none => some (none, now)
      | some h => (parseField parseTs (firstTsField h)).map (fun q => (some q, now)))
    ∧ ((∀ d ∈ probeOffsets, fetch (now - d * 86400) (now - d * 86400 + 3600) = []) →
        get_available_history_range fetch parseTs now = some (none, now)) := by
  have key : get_available_history_range fetch parseTs now =
      match probeFirst fetch now probeOffsets with
      | none => some (none, now)
      | some h => (parseField parseTs (firstTsField h)).map (fun q => (some q, now)) := by
    simp only [get_available_history_range, probeOffsets, probeFirst]
    cases fetch (now - 30 * 86400) (now - 30 * 86400 + 3600) with
    | nil => exact gahrLoop_eq_probeFirst fetch parseTs now [14, 7, 3, 1]
    | cons h rest => rfl
  refine ⟨key, fun hall => ?_⟩
  have hnone : probeFirst fetch now probeOffsets = none := by
    simp only [probeOffsets] at hall ⊢
    rw [probeFirst, hall 30 (by simp), probeFirst, hall 14 (by simp),
      probeFirst, hall 7 (by simp), probeFirst, hall 3 (by simp),
      probeFirst, hall 1 (by simp), probeFirst]
  rw [key, hnone]

/-- Concrete instance of C6 (spec Scenario F): a remote with no history at
any probed offset yields `(none, now)`. -/
theorem C6_range_discovery_witness :
    get_available_history_range (fun _ _ => []) (fun _ => 0) 0 = some (none, 0) :=
  (C6_range_discovery (fun _ _ => []) (fun _ => 0) 0).2 (fun _ _ => rfl)

/-! ### `get_history` response handling (ha_api.py, lines 196-203)

After `result = self._request(...)` the method runs
`if result and len(result) > 0: return result[0]` and otherwise returns
`[]`.  `result` is an arbitrary parsed JSON body; the three Python
primitives involved (truthiness, `len`, indexing with the integer `0`)
are modelled on `JVal`, with `none` standing for a raised exception
(`TypeError` for `len` of a number/bool/null, `KeyError` for integer
indexing of an object whose keys are strings).
-/

/-- Python truthiness of a parsed JSON value. -/
def pyTruthy : JVal → Bool
  | JVal.null => false
  | JVal.b v => v
  | JVal.num q => q != 0
  | JVal.str s => !s.isEmpty
  | JVal.arr xs => !xs.isEmpty
  | JVal.obj kvs => !kvs.isEmpty

/-- Python `len` of a parsed JSON value: `none` models the `TypeError`
raised on numbers, booleans and null. -/
def pyLen : JVal → Option Nat
  | JVal.str s => some s.length
  | JVal.arr xs => some xs.length
  | JVal.obj kvs => some kvs.length
  | _ => none

/-- Python `result[0]` on a parsed JSON value: the head of a list, the
first character of a string; `none` models the exception raised on an
empty list, on an object (JSON object keys are strings, never the integer
`0`), or on a number/bool/null. -/
def pyIndexZero : JVal → Option JVal
  | JVal.arr (x :: _) => some x
  | JVal.str s =>
    match s.toList with
    | c :: _ => some (JVal.str (String.mk [c]))
    | [] => none
  | _ => none

/-- Embedding of the response handling of `HomeAssistantAPI.get_history`
(ha_api.py, lines 196-203), applied to the parsed JSON body: `some v`
is the returned value, `none` a raised exception. -/
def get_history_take_first (result : JVal) : Option JVal :=
  if pyTruthy result then
    match pyLen result with
    | none => none
    | some n => if 0 < n then pyIndexZero result else some (JVal.arr [])
  else some (JVal.arr [])

/-- Claim C7 is falsified by the code: on the malformed (non-list, truthy)
body `5`, `len(result)` raises `TypeError`, so `get_history` raises
instead of returning an empty sequence. -/
theorem C7_take_first_counterexample :
    get_history_take_first (JVal.num 5) = none
    ∧ (none : Option JVal) ≠ some (JVal.arr []) := by
  constructor
  · rfl
  · simp

/-- Claim C7 (amended): `get_history` returns the first inner list when
the response body is a non-empty JSON list, and an empty sequence when
the body is an empty list or any falsy value (such as null); but a truthy
non-list body is not handled: a number raises `TypeError` in `len`, and a
non-empty object raises `KeyError` at `result[0]` — the method is not
exception-free on malformed bodies. -/
theorem C7_take_first_amended :
    (∀ (x : JVal) (rest : List JVal),
      get_history_take_first (JVal.arr (x :: rest)) = some x)
    ∧ get_history_take_first (JVal.arr []) = some (JVal.arr [])
    ∧ get_history_take_first JVal.null = some (JVal.arr [])
    ∧ get_history_take_first (JVal.num 5) = none
    ∧ ∀ (k : String) (v : JVal) (kvs : List (String × JVal)),
        get_history_take_first (JVal.obj ((k, v) :: kvs)) = none := by
  refine ⟨?_, rfl, rfl, rfl, ?_⟩
  · intro x rest
    simp [get_history_take_first, pyTruthy, pyLen, pyIndexZero]
  · intro k v kvs
    simp [get_history_take_first, pyTruthy, pyLen, pyIndexZero]

/-! ### `process_climate_history` (server.py, lines 129-179) -/

/-- The five parallel arrays built by the climate loop. -/
structure ClimateLists where
  timestamps : List String
  current_temperature : List JVal
  temperature : List JVal
  ext_current_temperature : List JVal
  is_heating : List Nat

/-- The per-entry attribute extraction of the climate loop (server.py,
lines 153-170): current temperature, target temperature, external
temperature (preferring `specific_states.ext_current_temperature`, then
the top-level attribute), and the heating flag from `hvac_action`.
Returns `none` when `attrs.get("specific_states", {})` yields a non-dict
truthy value, on which Python's `specific_states.get(...)` raises
`AttributeError`. -/
def climateStep (attrs : List (String × JVal)) :
    Option (JVal × JVal × JVal × Nat) :=
  match (jget attrs "specific_states").getD (JVal.obj []) with
  | JVal.obj ss =>
    let cur := (jget attrs "current_temperature").getD JVal.null
    let tgt := (jget attrs "temperature").getD JVal.null
    let ext0 := (jget ss "ext_current_temperature").getD JVal.null
    let ext :=
      match ext0 with
      | JVal.null => (jget attrs "ext_current_temperature").getD JVal.null
      | v => v
    let heat : Nat :=
      match (jget attrs "hvac_action").getD (JVal.str "idle") with
      | JVal.str s => if s == "heating" then 1 else 0
      | _ => 0
    some (cur, tgt, ext, heat)
  | _ => none

/-- The loop of `process_climate_history`; `none` models an exception
escaping the function. -/
def pchLoop : List RawEntry → Option ClimateLists
  | [] => some ⟨[], [], [], [], []⟩
  | e :: rest =>
    match entryTs e with
    | none => pchLoop rest
    | some ts =>
      match climateStep (e.attributes.getD []) with
      | none => none
      | some c =>
        match pchLoop rest with
        | none => none
        | some r =>
          some ⟨ts :: r.timestamps, c.1 :: r.current_temperature,
            c.2.1 :: r.temperature, c.2.2.1 :: r.ext_current_temperature,
            c.2.2.2 :: r.is_heating⟩

/-- Result record of `process_climate_history` (`type` is always
`"climate"`). -/
structure ClimateResult where
  type : String
  timestamps : List String
  current_temperature : List JVal
  temperature : List JVal
  ext_current_temperature : List JVal
  is_heating : List Nat

/-- Embedding of `process_climate_history(history_data)` (server.py,
lines 129-179). -/
def process_climate_history (history_data : List RawEntry) : Option ClimateResult :=
  (pchLoop history_data).map (fun r =>
    { type := "climate"
      timestamps := r.timestamps
      current_temperature := r.current_temperature
      temperature := r.temperature
      ext_current_temperature := r.ext_current_temperature
      is_heating := r.is_heating })

/-- When the climate loop completes, its `timestamps` are exactly the
truthy timestamps of the surviving entries and all five arrays have equal
length. -/
theorem pchLoop_characterization (hist : List RawEntry) (out : ClimateLists)
    (h : pchLoop hist = some out) :
    out.timestamps = (hist.filter tsPresent).map tsValue
    ∧ out.current_temperature.length = out.timestamps.length
    ∧ out.temperature.length = out.timestamps.length
    ∧ out.ext_current_temperature.length = out.timestamps.length
    ∧ out.is_heating.length = out.timestamps.length := by
  induction hist generalizing out with
  | nil =>
    simp only [pchLoop, Option.some.injEq] at h
    subst h
    simp
  | cons e rest ih =>
    rw [pchLoop] at h
    cases hts : entryTs e with
    | none =>
      rw [hts] at h
      have := ih out h
      simpa [tsPresent, hts] using this
    | some ts =>
      rw [hts] at h
      cases hstep : climateStep (e.attributes.getD []) with
      | none => rw [hstep] at h; exact absurd h (by simp)
      | some c =>
        rw [hstep] at h
        cases hrest : pchLoop rest with
        | none => rw [hrest] at h; exact absurd h (by simp)
        | some r =>
          rw [hrest] at h
          simp only [Option.some.injEq] at h
          subst h
          have := ih r hrest
          simp [tsPresent, tsValue, hts, this.1, this.2.1, this.2.2.1,
            this.2.2.2.1, this.2.2.2.2]

/-! ### Attribute-path history (`get_attribute_history`, server.py of the
`ha_entity_explorer` package, lines 429-521; the transformation loop is
lines 472-516) -/

/-- `key.split('.')`, implemented structurally over the character list so
that it evaluates inside the kernel; agrees with Python `str.split('.')`
(adjacent dots yield empty segments). -/
def splitDotsAux (cur : List Char) : List Char → List String
  | [] => [String.mk cur.reverse]
  | '.' :: rest => String.mk cur.reverse :: splitDotsAux [] rest
  | c :: rest => splitDotsAux (c :: cur) rest

/-- `key.split('.')` on a string. -/
def splitDots (s : String) : List String :=
  splitDotsAux [] s.toList

/-- The attribute walk of `get_attribute_history` (server.py, lines
488-495): follow the dot-separated key parts by successive `dict.get`
lookups, stopping with `None` as soon as the current value is not a
dict. -/
def walkPath : List String → JVal → JVal
  | [], val => val
  | part :: rest, val =>
    match val with
    | JVal.obj kvs => walkPath rest ((jget kvs part).getD JVal.null)
    | _ => JVal.null

/-- `isinstance(val, (int, float))` on a JSON value; Python `bool` is a
subclass of `int`, so booleans count as numeric. -/
def isNumericVal : JVal → Bool
  | JVal.num _ => true
  | JVal.b _ => true
  | _ => false

/-- The loop of `get_attribute_history`: the `timestamps` and `values`
arrays plus the final `is_numeric` flag (`none` models Python `None`,
never set because every walked value was null). -/
def gahLoop (parts : List String) : List RawEntry → List String × List JVal × Option Bool
  | [] => ([], [], none)
  | e :: rest =>
    match entryTs e with
    | none => gahLoop parts rest
    | some ts =>
      let val := walkPath parts (JVal.obj (e.attributes.getD []))
      let r := gahLoop parts rest
      let contrib : Option Bool := if val.isNull then none else some (isNumericVal val)
      (ts :: r.1, val :: r.2.1, contrib.orElse (fun _ => r.2.2))

/-- Result record of `get_attribute_history`. -/
structure AttrResult where
  key : String
  type : String
  timestamps : List String
  values : List JVal

/-- Embedding of the transformation part of the
`/api/attribute-history/<entity_id>` route (server.py of the
`ha_entity_explorer` package, lines 472-516): walk each surviving entry's
attributes along the key path, classify by the first non-null value, and
default `is_numeric` to `True` when every value is null. -/
def get_attribute_history (key : String) (history : List RawEntry) : AttrResult :=
  let parts := splitDots key
  let r := gahLoop parts history
  let is_numeric := r.2.2.getD true
  { key := key
    type := if is_numeric then "numeric" else "text"
    timestamps := r.1
    values := r.2.1 }

/-- The `timestamps` array of the attribute loop contains exactly the
truthy timestamps of the surviving entries, in order. -/
theorem gahLoop_timestamps (parts : List String) (hist : List RawEntry) :
    (gahLoop parts hist).1 = (hist.filter tsPresent).map tsValue := by
  induction hist with
  | nil => rfl
  | cons e rest ih =>
    cases h : entryTs e with
    | none => simp [gahLoop, h, tsPresent, ih]
    | some ts => simp [gahLoop, h, tsPresent, tsValue, ih]

/-- The `values` array of the attribute loop contains exactly the walked
value of each surviving entry, in order. -/
theorem gahLoop_values (parts : List String) (hist : List RawEntry) :
    (gahLoop parts hist).2.1
      = (hist.filter tsPresent).map
          (fun e => walkPath parts (JVal.obj (e.attributes.getD []))) := by
  induction hist with
  | nil => rfl
  | cons e rest ih =>
    cases h : entryTs e with
    | none => simp [gahLoop, h, tsPresent, ih]
    | some ts => simp [gahLoop, h, tsPresent, ih]

/-- Claim C8: in attribute-path mode the walk terminates with null (never
raises) as soon as a non-mapping intermediate value is met while parts
remain, and the null is recorded at the entry's index: the `values` array
holds the walked value of every surviving entry in order, aligned with
`timestamps`. -/
theorem C8_attr_walk_safety (key : String) (hist : List RawEntry) :
    (∀ (part : String) (parts : List String) (v : JVal),
        (∀ kvs : List (String × JVal), v ≠ JVal.obj kvs) →
        walkPath (part :: parts) v = JVal.null)
    ∧ (get_attribute_history key hist).values
        = (hist.filter tsPresent).map
            (fun e => walkPath (splitDots key) (JVal.obj (e.attributes.getD [])))
    ∧ (get_attribute_history key hist).values.length
        = (get_attribute_history key hist).timestamps.length := by
  refine ⟨?_, ?_, ?_⟩
  · intro part parts v hv
    cases v with
    | obj kvs => exact absurd rfl (hv kvs)
    | null => rfl
    | b x => rfl
    | num x => rfl
    | str x => rfl
    | arr x => rfl
  · exact gahLoop_values (splitDots key) hist
  · show (gahLoop (splitDots key) hist).2.1.length = (gahLoop (splitDots key) hist).1.length
    rw [gahLoop_values, gahLoop_timestamps]
    simp

/-- Concrete instance of C8: walking the path `a.b` from the non-mapping
value `1` yields null instead of raising. -/
theorem C8_attr_walk_safety_witness :
    walkPath ["a", "b"] (JVal.num 1) = JVal.null :=
  (C8_attr_walk_safety "a.b" []).1 "a" ["b"] (JVal.num 1)
    (fun _ h => JVal.noConfusion h)

/-- Claim C9: in all three transformer modes an entry whose two timestamp
fields are both absent or falsy contributes no index to any output array
(the timestamp arrays list exactly the surviving entries), and all
parallel arrays have equal length. -/
theorem C9_drop_rule_alignment (hist : List RawEntry) (eid key : String)
    (res : ClimateResult) (h : process_climate_history hist = some res) :
    ((process_generic_history hist eid).timestamps = (hist.filter tsPresent).map tsValue
      ∧ (process_generic_history hist eid).states.length
          = (process_generic_history hist eid).timestamps.length)
    ∧ ((get_attribute_history key hist).timestamps = (hist.filter tsPresent).map tsValue
      ∧ (get_attribute_history key hist).values.length
          = (get_attribute_history key hist).timestamps.length)
    ∧ (res.timestamps = (hist.filter tsPresent).map tsValue
      ∧ res.current_temperature.length = res.timestamps.length
      ∧ res.temperature.length = res.timestamps.length
      ∧ res.ext_current_temperature.length = res.timestamps.length
      ∧ res.is_heating.length = res.timestamps.length) := by
  refine ⟨⟨pghLoop_timestamps hist, ?_⟩, ⟨gahLoop_timestamps (splitDots key) hist, ?_⟩, ?_⟩
  · show (pghLoop hist).2.1.length = (pghLoop hist).1.length
    rw [pghLoop_states, pghLoop_timestamps]
    simp
  · show (gahLoop (splitDots key) hist).2.1.length = (gahLoop (splitDots key) hist).1.length
    rw [gahLoop_values, gahLoop_timestamps]
    simp
  · cases hr : pchLoop hist with
    | none =>
      rw [process_climate_history, hr] at h
      exact absurd h (by simp)
    | some r =>
      rw [process_climate_history, hr] at h
      simp only [Option.map_some', Option.some.injEq] at h
      subst h
      exact pchLoop_characterization hist r hr

/-- Concrete instance of C9 on the empty history (all three modes). -/
theorem C9_drop_rule_alignment_witness :
    (process_generic_history [] "sensor.alpha").timestamps
      = (([] : List RawEntry).filter tsPresent).map tsValue :=
  (C9_drop_rule_alignment [] "sensor.alpha" "k" ⟨"climate", [], [], [], [], []⟩ rfl).1.1

/-- Claim C10: with zero typed values (`is_numeric` still `None` after the
loop), `process_generic_history` classifies the series `"text"` while the
package version of `get_attribute_history` defaults `is_numeric` to
`True` and classifies `"numeric"`. -/
theorem C10_default_classification (hist hist2 : List RawEntry) (eid key : String)
    (hg : (pghLoop hist).2.2 = none)
    (hattr : (gahLoop (splitDots key) hist2).2.2 = none) :
    (process_generic_history hist eid).type = "text"
    ∧ (get_attribute_history key hist2).type = "numeric" := by
  constructor
  · simp [process_generic_history, hg]
  · simp [get_attribute_history, hattr]

/-- Concrete instance of C10 on empty histories. -/
theorem C10_default_classification_witness :
    (process_generic_history [] "sensor.beta").type = "text"
    ∧ (get_attribute_history "k2" []).type = "numeric" :=
  C10_default_classification [] [] "sensor.beta" "k2" rfl rfl
